import Mathlib

/-!
A verification development for the PomodoroTimer core: the session ledger,
the daily-statistics aggregation engine (`database.py`), the achievement
evaluator and level curve (`achievements.py`), and the work-completion path
of the timer state machine (`timer.py`).

Modelling conventions:
* Calendar dates are encoded as natural day indices (days since an epoch
  lying before every session); `d - 1` is the immediately preceding day.
  Timestamps of unlock events are abstract `Nat` instants.
* SQLite `INTEGER` arithmetic is `Nat` (durations are non-negative);
  `REAL` columns (`focus_score`, `avg_focus_score`, `progress`) are `ℚ`.
  SQLite integer division (`SUM(duration) / 60`) is `Nat` division.
* Tables are association lists keyed the way the schema keys them.
-/

/-- One row of the `sessions` table (`PomodoroSession` in `database.py`).
`startDay`/`startHour` encode `date(start_time)` and `strftime('%H', start_time)`.
The presentation-only columns `tags` and `notes` are omitted; no logic reads them. -/
structure Session where
  startDay : Nat
  startHour : Nat
  duration : Nat
  taskName : String
  completed : Bool
  interruptions : Nat
  focusScore : ℚ
deriving DecidableEq

/-- One row of the `daily_stats` table (`DailyStat` in `database.py`). -/
structure DailyStat where
  date : Nat
  total_pomodoros : Nat
  total_minutes : Nat
  avg_focus_score : ℚ
  completed_tasks : Nat
  most_productive_hour : Option Nat
  streak_days : Nat
deriving DecidableEq

/-- The completed sessions whose start timestamp falls on day `d`
(the SQL filter `date(start_time) = ? AND completed = 1`). -/
def sessionsOnDate (ss : List Session) (d : Nat) : List Session :=
  ss.filter (fun s => s.startDay == d && s.completed)

/-- Holds iff day `d` has at least one completed session
(the SQL `SELECT COUNT(*) ... WHERE date(start_time) = ? AND completed = 1` test). -/
def hasCompletedOn (ss : List Session) (d : Nat) : Bool :=
  ss.any (fun s => s.startDay == d && s.completed)

/-- Number of completed sessions of day `d` starting in hour `h`:
the size of one `GROUP BY strftime('%H', start_time)` group. -/
def hourCount (ss : List Session) (d h : Nat) : Nat :=
  ((sessionsOnDate ss d).filter (fun s => s.startHour == h)).length

/-- The distinct start hours of day `d`'s completed sessions: the groups the
`GROUP BY strftime('%H', start_time)` clause produces. -/
def dayHours (ss : List Session) (d : Nat) : List Nat :=
  ((sessionsOnDate ss d).map (fun s => s.startHour)).dedup

/-- The hour kept by `ORDER BY COUNT(*) DESC LIMIT 1`: a group of maximum
size, `none` when the day has no completed session.  SQLite's ordering
between equal-count groups is unspecified (spec §9); the model keeps the
first group on ties, and no theorem below depends on tie order. -/
def bestHour (ss : List Session) (d : Nat) : Option Nat :=
  (dayHours ss d).foldl
    (fun acc h =>
      match acc with
      | none => some h
      | some b => if hourCount ss d h > hourCount ss d b then some h else acc)
    none

/-- Model of `DatabaseManager._calculate_streak` (`database.py:420-445`): walk backwards
from `current_date` while consecutive days have at least one completed session.
Day `0` is the model's epoch, before which no session exists, so the walk
stops there exactly as the Python loop stops at the first empty day. -/
def calculateStreak (ss : List Session) : Nat → Nat
  | 0 => if hasCompletedOn ss 0 then 1 else 0
  | n + 1 => if hasCompletedOn ss (n + 1) then 1 + calculateStreak ss n else 0

/-- The row `DatabaseManager._update_daily_stats` (`database.py:371-418`)
writes for day `d`, `none` when its query returns no row (count 0: nothing
is written).  NOTE the faithful quirk: because the aggregation query ends in
`GROUP BY strftime('%H', start_time) ORDER BY COUNT(*) DESC LIMIT 1`, every
aggregate (`COUNT(*)`, `SUM(duration)/60`, `AVG(focus_score)`,
`COUNT(DISTINCT task_name)`) ranges over the single most-populated hour
group only, not over the whole day. -/
def updateDailyStats (ss : List Session) (d : Nat) : Option DailyStat :=
  match bestHour ss d with
  | none => none
  | some h =>
    let g := (sessionsOnDate ss d).filter (fun s => s.startHour == h)
    some
      { date := d
        total_pomodoros := g.length
        total_minutes := (g.map (fun s => s.duration)).sum / 60
        avg_focus_score := (g.map (fun s => s.focusScore)).sum / (g.length : ℚ)
        completed_tasks := ((g.map (fun s => s.taskName)).dedup).length
        most_productive_hour := some h
        streak_days := calculateStreak ss d }

/-- Replace `r` by `row` when it occupies `row`'s date slot. -/
def replaceRow (row r : DailyStat) : DailyStat :=
  if r.date == row.date then row else r

/-- The `INSERT OR REPLACE INTO daily_stats` write: replace the row with the same date,
or append the new row. -/
def upsertDaily (tbl : List DailyStat) (row : DailyStat) : List DailyStat :=
  if tbl.any (fun r => r.date == row.date) then
    tbl.map (replaceRow row)
  else
    tbl ++ [row]

/-- The lookup `SELECT * FROM daily_stats WHERE date = ?` (`get_daily_stats`). -/
def getDailyStat (tbl : List DailyStat) (d : Nat) : Option DailyStat :=
  tbl.find? (fun r => r.date == d)

/-- The effect of one `_update_daily_stats(d)` call on the `daily_stats`
table: upsert the recomputed row, or leave the table untouched when the
day has no completed session. -/
def applyUpdateDailyStats (ss : List Session) (tbl : List DailyStat) (d : Nat) :
    List DailyStat :=
  match updateDailyStats ss d with
  | none => tbl
  | some row => upsertDaily tbl row

/-- One row of the `achievements` table (`Achievement` in `database.py`).
`unlockedDate` is an abstract instant; the presentation columns
(name, description, icon, category, rarity) carry no evaluator logic and are
kept as opaque strings on the seeded catalog below. -/
structure Ach where
  id : String
  unlocked : Bool
  unlockedDate : Option Nat
  progress : ℚ
  max_progress : ℚ
deriving DecidableEq

/-- The statistics context one `check_achievements()` call evaluates against:
the `user_stats` values it reads (`total_pomodoros`, `total_hours`), today's
`daily_stats` row, `get_sessions(start_date=today)` and `get_sessions()`.
None of these tables change while the loop runs (only `achievements` rows are
written), so one snapshot is faithful. -/
structure Env where
  total_pomodoros : Nat
  total_hours : ℚ
  todayStat : Option DailyStat
  todaySessions : List Session
  allSessions : List Session

/-- Model of `AchievementManager._update_achievement_progress` (`achievements.py:258-285`):
the freshly computed progress value for the achievement's rule family
(`0` for identifiers outside every family).  The stored row ends up holding
exactly this value whether or not the guarded write fires, since the write is
skipped only when the value is already stored. -/
def update_achievement_progress (a : Ach) (env : Env) : ℚ :=
  if a.id == "first_pomodoro" || a.id == "ten_pomodoros"
      || a.id == "hundred_pomodoros" || a.id == "thousand_pomodoros" then
    min (env.total_pomodoros : ℚ) a.max_progress
  else if a.id == "three_day_streak" || a.id == "week_streak"
      || a.id == "month_streak" || a.id == "year_streak" then
    match env.todayStat with
    | some ts => min (ts.streak_days : ℚ) a.max_progress
    | none => 0
  else if a.id == "perfect_day" then
    match env.todayStat with
    | some ts => min (ts.total_pomodoros : ℚ) a.max_progress
    | none => 0
  else if a.id == "marathon" then
    min (env.total_hours * 60) a.max_progress
  else if a.id == "time_traveler" then
    min (env.total_hours * 60) a.max_progress
  else 0

/-- Model of `AchievementManager._check_achievement` (`achievements.py:182-256`).
Result: the boolean verdict, paired with the progress value the row stores
after the call.  Branches of the `if/elif` chain that `return` a verdict leave
the stored progress untouched (`a.progress`); control reaches the trailing
`_update_achievement_progress` call only by falling through the whole chain,
in which case the stored progress becomes the freshly computed value. -/
def check_achievement (a : Ach) (env : Env) : Bool × ℚ :=
  if a.id == "first_pomodoro" then (decide (1 ≤ env.total_pomodoros), a.progress)
  else if a.id == "ten_pomodoros" then (decide (10 ≤ env.total_pomodoros), a.progress)
  else if a.id == "hundred_pomodoros" then (decide (100 ≤ env.total_pomodoros), a.progress)
  else if a.id == "thousand_pomodoros" then (decide (1000 ≤ env.total_pomodoros), a.progress)
  else if a.id == "three_day_streak" || a.id == "week_streak"
      || a.id == "month_streak" || a.id == "year_streak" then
    match env.todayStat with
    | some ts =>
      if a.id == "three_day_streak" then (decide (3 ≤ ts.streak_days), a.progress)
      else if a.id == "week_streak" then (decide (7 ≤ ts.streak_days), a.progress)
      else if a.id == "month_streak" then (decide (30 ≤ ts.streak_days), a.progress)
      else (decide (365 ≤ ts.streak_days), a.progress)
    | none => (false, update_achievement_progress a env)
  else if a.id == "daily_goal" then
    match env.todayStat with
    | some ts => (decide (8 ≤ ts.total_pomodoros), a.progress)
    | none => (false, update_achievement_progress a env)
  else if a.id == "perfect_day" then
    match env.todayStat with
    | some ts => (decide (8 ≤ ts.total_pomodoros), a.progress)
    | none => (false, update_achievement_progress a env)
  else if a.id == "early_bird" then
    if env.todaySessions.any (fun s => s.completed && s.startHour < 6) then (true, a.progress)
    else (false, update_achievement_progress a env)
  else if a.id == "night_owl" then
    if env.todaySessions.any (fun s => s.completed && 22 ≤ s.startHour) then (true, a.progress)
    else (false, update_achievement_progress a env)
  else if a.id == "perfect_focus" then
    if env.allSessions.any (fun s => s.completed && s.interruptions == 0) then (true, a.progress)
    else (false, update_achievement_progress a env)
  else if a.id == "marathon" then (decide (100 ≤ env.total_hours), a.progress)
  else if a.id == "time_traveler" then (decide (1000 ≤ env.total_hours), a.progress)
  else (false, update_achievement_progress a env)

/-- The fate of one `achievements` row during `check_achievements`
(`achievements.py:162-180`): already-unlocked rows are skipped (`continue`);
a row whose verdict is true is unlocked and stamped with `now` via
`update_achievement(id, unlocked=True)` (which does not touch `progress`);
otherwise the row keeps/receives the progress value from `_check_achievement`. -/
def checkAchievementsRow (now : Nat) (env : Env) (a : Ach) : Ach :=
  if a.unlocked then a
  else
    match check_achievement a env with
    | (true, _) => { a with unlocked := true, unlockedDate := some now }
    | (false, p) => { a with progress := p }

/-- Model of `AchievementManager.check_achievements`: the resulting `achievements`
table (each row processed independently; the loop's writes touch only the
row at hand). -/
def check_achievements (now : Nat) (env : Env) (rows : List Ach) : List Ach :=
  rows.map (checkAchievementsRow now env)

/-- The catalog seeded by `DatabaseManager._init_achievements`
(`database.py:161-210`): identifier and `max_progress` of each row; every row
starts locked with progress `0` (only these fields feed the evaluator). -/
def initAchievementRow (id : String) (maxProgress : ℚ) : Ach :=
  { id := id, unlocked := false, unlockedDate := none, progress := 0,
    max_progress := maxProgress }

/-- The 20 seeded achievement rows, in `_init_achievements` order. -/
def initAchievements : List Ach :=
  [ initAchievementRow "first_pomodoro" 1
  , initAchievementRow "ten_pomodoros" 10
  , initAchievementRow "hundred_pomodoros" 100
  , initAchievementRow "thousand_pomodoros" 1000
  , initAchievementRow "three_day_streak" 3
  , initAchievementRow "week_streak" 7
  , initAchievementRow "month_streak" 30
  , initAchievementRow "year_streak" 365
  , initAchievementRow "daily_goal" 1
  , initAchievementRow "early_bird" 1
  , initAchievementRow "night_owl" 1
  , initAchievementRow "perfect_day" 8
  , initAchievementRow "perfect_focus" 1
  , initAchievementRow "focus_master" 5
  , initAchievementRow "deep_work" 10
  , initAchievementRow "weekend_warrior" 10
  , initAchievementRow "task_crusher" 10
  , initAchievementRow "marathon" 6000
  , initAchievementRow "time_traveler" 60000
  , initAchievementRow "task_master" 1000 ]

/-- The increment `int(10 * (1.15 ** level_down))` of
`AchievementManager._init_level_thresholds` (`achievements.py:108-117`),
in exact arithmetic: `⌊10 · (23/20)^k⌋`.  Python evaluates the power in
binary floating point; for every exponent `0 ≤ k ≤ 99` used by the table the
float result truncates to the same integer as the exact value, so the exact
form is a faithful model of the 101-entry table the code builds. -/
def requiredFor (k : Nat) : Nat := 10 * 23 ^ k / 20 ^ k

/-- Threshold of level `n`: `thresholds[0] = 0`,
`thresholds[n] = thresholds[n-1] + required(n-1)` — the loop of
`_init_level_thresholds`. -/
def threshold : Nat → Nat
  | 0 => 0
  | n + 1 => threshold n + requiredFor n

/-- The `level_thresholds` list: 101 entries, levels 0 through 100. -/
def level_thresholds : List Nat := (List.range 101).map threshold

/-- The scanning loop of `AchievementManager.get_level`
(`achievements.py:119-131`): walk the thresholds with their indices, remember
the last index whose threshold is within reach, stop at the first that is not. -/
def getLevelLoop (total : Nat) : Nat → List Nat → Nat → Nat
  | _, [], level => level
  | i, t :: rest, level =>
    if total ≥ t then getLevelLoop total (i + 1) rest i else level

/-- Model of `get_level`, as a function of the `total_pomodoros` user statistic it
reads (the count of completed sessions, stored and re-parsed as an integer). -/
def get_level (total : Nat) : Nat := getLevelLoop total 0 level_thresholds 0

/-- Model of `calculate_focus_score` (`timer.py:482-487`):
`max(0, 100 - interruptions * 10)`. -/
def calculate_focus_score (interruptions : Nat) : Int :=
  max 0 (100 - 10 * (interruptions : Int))

/-- Which break `complete_session` starts after a finished work interval. -/
inductive BreakKind where
  | short
  | long
deriving DecidableEq

/-- The timer fields `complete_session` reads and writes on the
`state == "working"` branch.  `today`/`nowHour` stand for
`datetime.now().date()` and the current hour; the model (like every run that
does not straddle midnight) takes the session's start date to be `today`. -/
structure TimerSt where
  sessions : List Session
  daily : List DailyStat
  daily_pomodoros : Nat
  pomodoros_until_long : Nat
  work_duration : Nat
  current_task : String
  interruptions : Nat
  today : Nat
  nowHour : Nat

/-- The `working` branch of `PomodoroTimer.complete_session`
(`timer.py:407-480`) together with the `update_daily_stats` refresh it calls
(`timer.py:726-747`):

1. build the completed `Session` (duration = configured work length,
   `focus_score = calculate_focus_score()`), save it to the ledger;
2. increment `self.daily_pomodoros` (`timer.py:431`) — the incremented value
   is immediately overwritten in step 4 and never observed;
3. recompute the `daily_stats` row for today (`db._update_daily_stats`);
4. `update_daily_stats`: reload today's row and set `daily_pomodoros` to its
   `total_pomodoros` (falling back to `0` when no row exists even after a
   forced recompute);
5. pick `long_break` iff `daily_pomodoros > 0` and
   `daily_pomodoros % pomodoros_until_long == 0`.

The achievement check and user-stats refresh on the same path write no state
read here. -/
def complete_work (st : TimerSt) : TimerSt × BreakKind :=
  let s : Session :=
    { startDay := st.today, startHour := st.nowHour, duration := st.work_duration,
      taskName := st.current_task, completed := true,
      interruptions := st.interruptions,
      focusScore := (calculate_focus_score st.interruptions : ℚ) }
  let sessions' := st.sessions ++ [s]
  let daily' := applyUpdateDailyStats sessions' st.daily st.today
  let dp :=
    match getDailyStat daily' st.today with
    | some row => row.total_pomodoros
    | none => 0
  let isLong := dp > 0 && dp % st.pomodoros_until_long == 0
  ({ st with sessions := sessions', daily := daily', daily_pomodoros := dp },
   if isLong then BreakKind.long else BreakKind.short)

/-- The ledger state `DatabaseManager.save_session` touches: the `sessions`
table (rows keyed by their autoincrement id), the next id, and the
`daily_stats` table the post-commit aggregation step rewrites.  The
`user_stats` recomputation shares the same guarded post-commit block but
writes only the `user_stats` key/value table, which no theorem below reads. -/
structure DB where
  sessions : List (Nat × Session)
  nextId : Nat
  daily : List DailyStat

/-- Model of `DatabaseManager.save_session` (`database.py:212-264`).
`insertThrow` models a storage failure inside the insert transaction: the
transaction is rolled back and `-1` returned.  `statsThrow` models an
exception raised by the synchronous `_update_daily_stats` /
`_update_user_stats` step that follows the commit: it is caught, logged and
**not** rolled back (`database.py:240-245`), and the new session's id is
still returned. -/
def save_session (db : DB) (s : Session) (insertThrow statsThrow : Bool) :
    DB × Int :=
  if insertThrow then (db, -1)
  else
    let sid := db.nextId
    let db1 : DB :=
      { sessions := db.sessions ++ [(sid, s)], nextId := sid + 1, daily := db.daily }
    let db2 :=
      if statsThrow then db1
      else
        { db1 with
          daily := applyUpdateDailyStats (db1.sessions.map (fun p => p.2)) db1.daily s.startDay }
    (db2, (sid : Int))

/-- A completed session with no interruptions, used for concrete scenarios. -/
def mkCompleted (d h dur : Nat) (t : String) : Session :=
  { startDay := d, startHour := h, duration := dur, taskName := t,
    completed := true, interruptions := 0,
    focusScore := (calculate_focus_score 0 : ℚ) }

section Lemmas

lemma replaceRow_idem (row r : DailyStat) :
    replaceRow row (replaceRow row r) = replaceRow row r := by
  unfold replaceRow
  by_cases h : (r.date == row.date) = true
  · rw [if_pos h]
    exact ite_self row
  · rw [if_neg h, if_neg h]

lemma replaceRow_of_ne (row r : DailyStat) (h : (r.date == row.date) = false) :
    replaceRow row r = r := by
  unfold replaceRow
  rw [h]
  simp

lemma upsertDaily_idem (tbl : List DailyStat) (row : DailyStat) :
    upsertDaily (upsertDaily tbl row) row = upsertDaily tbl row := by
  unfold upsertDaily
  by_cases h : tbl.any (fun r => r.date == row.date)
  · rw [if_pos h]
    obtain ⟨r, hr, hrd⟩ := List.any_eq_true.mp h
    have himg : replaceRow row r = row := by
      unfold replaceRow
      rw [if_pos hrd]
    have hmm := List.mem_map_of_mem (replaceRow row) hr
    rw [himg] at hmm
    have hany2 : (tbl.map (replaceRow row)).any
        (fun r => r.date == row.date) = true :=
      List.any_eq_true.mpr ⟨row, hmm, by simp⟩
    rw [if_pos hany2, List.map_map]
    exact List.map_congr_left fun x _ => replaceRow_idem row x
  · rw [if_neg h]
    have hall : ∀ r ∈ tbl, (r.date == row.date) = false := by
      intro r hr
      by_contra hc
      exact h (List.any_eq_true.mpr ⟨r, hr, by revert hc; cases r.date == row.date <;> simp⟩)
    have hany2 : (tbl ++ [row]).any (fun r => r.date == row.date) = true := by
      simp
    rw [if_pos hany2, List.map_append]
    have hmap : tbl.map (replaceRow row) = tbl := by
      rw [show tbl.map (replaceRow row) = tbl.map id from
          List.map_congr_left fun x hx => by rw [replaceRow_of_ne row x (hall x hx)]; rfl,
        List.map_id]
    rw [hmap]
    have : replaceRow row row = row := by
      unfold replaceRow
      simp
    simp [this]

end Lemmas

/-- Day 5 with one completed session at 09h and two at 10h, three distinct
task names, 1500 s (25 min) each. -/
def c1sessions : List Session :=
  [mkCompleted 5 9 1500 "a", mkCompleted 5 10 1500 "b", mkCompleted 5 10 1500 "c"]

/-- C1: `_update_daily_stats` is claimed to aggregate over ALL completed
sessions of the day; the code aggregates over the busiest hour's group only.
Failing input: three completed sessions on day 5 — one at 09h, two at 10h,
each of duration 1500 s, with three distinct task names.  The written row
counts 2 pomodoros, 50 minutes and 2 distinct tasks (the 10h group), while
the day has 3 completed sessions, 75 minutes and 3 distinct tasks. -/
theorem c1_aggregates_cover_busiest_hour_only :
    (updateDailyStats c1sessions 5).map
        (fun r => (r.total_pomodoros, r.total_minutes, r.completed_tasks,
          r.most_productive_hour)) = some (2, 50, 2, some 10) ∧
    (sessionsOnDate c1sessions 5).length = 3 ∧
    ((sessionsOnDate c1sessions 5).map (fun s => s.duration)).sum / 60 = 75 ∧
    ((sessionsOnDate c1sessions 5).map (fun s => s.taskName)).dedup.length = 3 := by
  decide

/-- C4: recomputing the daily row twice for the same date over unchanged
session data leaves the `daily_stats` table exactly as one recomputation
does. -/
theorem c4_update_daily_stats_idempotent (ss : List Session)
    (tbl : List DailyStat) (d : Nat) :
    applyUpdateDailyStats ss (applyUpdateDailyStats ss tbl d) d =
      applyUpdateDailyStats ss tbl d := by
  unfold applyUpdateDailyStats
  cases h : updateDailyStats ss d with
  | none => rfl
  | some row => exact upsertDaily_idem tbl row

/-- C5: an achievement row with `unlocked = true` passes through
`check_achievements` untouched (the loop `continue`s over it), so the flag
never reverts and the unlock timestamp never changes. -/
theorem c5_unlock_monotone :
    (∀ (now : Nat) (env : Env) (a : Ach), a.unlocked = true →
      checkAchievementsRow now env a = a) ∧
    (∀ (now : Nat) (env : Env) (rows : List Ach) (a : Ach),
      a ∈ rows → a.unlocked = true → a ∈ check_achievements now env rows) := by
  constructor
  · intro now env a h
    simp [checkAchievementsRow, h]
  · intro now env rows a hm h
    have hmem := List.mem_map_of_mem (checkAchievementsRow now env) hm
    have heq : checkAchievementsRow now env a = a := by simp [checkAchievementsRow, h]
    rw [heq] at hmem
    exact hmem

/-- An already-unlocked achievement row, for exercising C5 concretely. -/
def c5ach : Ach :=
  { id := "first_pomodoro", unlocked := true, unlockedDate := some 5,
    progress := 1, max_progress := 1 }

/-- An empty statistics context. -/
def emptyEnv : Env :=
  { total_pomodoros := 0, total_hours := 0, todayStat := none,
    todaySessions := [], allSessions := [] }

/-- Witness for C5 at a concrete unlocked row. -/
theorem c5_unlock_monotone_witness :
    checkAchievementsRow 9 emptyEnv c5ach = c5ach ∧
    c5ach ∈ check_achievements 9 emptyEnv [c5ach] :=
  ⟨c5_unlock_monotone.1 9 emptyEnv c5ach rfl,
   c5_unlock_monotone.2 9 emptyEnv [c5ach] c5ach (by simp) rfl⟩

/-- Timer state about to finish the day's 4th work interval (interval 4):
three completed sessions already, one each at 09h, 10h, 11h; the new one
starts at 12h.  Each hour group then holds one session. -/
def c8state : TimerSt :=
  { sessions :=
      [mkCompleted 0 9 1500 "t", mkCompleted 0 10 1500 "t", mkCompleted 0 11 1500 "t"]
  , daily := []
  , daily_pomodoros := 3
  , pomodoros_until_long := 4
  , work_duration := 1500
  , current_task := "t"
  , interruptions := 0
  , today := 0
  , nowHour := 12 }

/-- C8: completing the 4th work interval of the day with
`pomodoros_until_long = 4` is claimed to transition to `long_break`.  The
code instead refreshes `daily_pomodoros` from the recomputed `daily_stats`
row, whose `total_pomodoros` is the busiest-hour group size (here 1, the
four sessions sitting in four different hours), so it starts a short break. -/
theorem c8_fourth_completion_gets_short_break :
    (complete_work c8state).2 = BreakKind.short ∧
    (sessionsOnDate (complete_work c8state).1.sessions 0).length = 4 ∧
    c8state.pomodoros_until_long = 4 ∧
    (complete_work c8state).1.daily_pomodoros = 1 := by
  decide

/-- C7: the session recorded at work-interval expiry carries
`focus_score = max(0, 100 − 10 × interruptions)`, which always lies in
`[0, 100]`. -/
theorem c7_focus_score_formula (st : TimerSt) :
    ∃ s : Session,
      (complete_work st).1.sessions = st.sessions ++ [s] ∧
      s.completed = true ∧
      s.interruptions = st.interruptions ∧
      s.focusScore = max 0 (100 - 10 * (st.interruptions : ℚ)) ∧
      0 ≤ s.focusScore ∧ s.focusScore ≤ 100 := by
  refine ⟨_, rfl, rfl, rfl, ?_, ?_, ?_⟩
  · show ((calculate_focus_score st.interruptions : Int) : ℚ) = _
    unfold calculate_focus_score
    push_cast
    rfl
  · show (0 : ℚ) ≤ ((calculate_focus_score st.interruptions : Int) : ℚ)
    unfold calculate_focus_score
    push_cast
    exact le_max_left _ _
  · show ((calculate_focus_score st.interruptions : Int) : ℚ) ≤ 100
    unfold calculate_focus_score
    push_cast
    refine max_le (by norm_num) ?_
    have : (0 : ℚ) ≤ 10 * (st.interruptions : ℚ) := by positivity
    linarith

/-- C9: when the insert commits but the synchronous aggregation step that
follows raises (`statsThrow = true`), the session stays in the ledger and
`save_session` still returns the new id — the exception is caught and the
save is not rolled back. -/
theorem c9_session_survives_stats_failure (db : DB) (s : Session) :
    (save_session db s false true).2 = (db.nextId : Int) ∧
    (save_session db s false true).1.sessions = db.sessions ++ [(db.nextId, s)] ∧
    (db.nextId, s) ∈ (save_session db s false true).1.sessions := by
  refine ⟨rfl, rfl, ?_⟩
  simp [save_session]

section StreakLemmas

lemma bestHour_foldl_isSome (ss : List Session) (d : Nat) :
    ∀ (t : List Nat) (acc : Option Nat), acc.isSome = true →
      (t.foldl
        (fun acc h =>
          match acc with
          | none => some h
          | some b => if hourCount ss d h > hourCount ss d b then some h else acc)
        acc).isSome = true := by
  intro t
  induction t with
  | nil => intro acc h; exact h
  | cons x xs ih =>
    intro acc h
    rw [List.foldl_cons]
    apply ih
    cases acc with
    | none => simp at h
    | some b =>
      show (if hourCount ss d x > hourCount ss d b then some x else some b).isSome = true
      split <;> rfl

lemma sessionsOnDate_ne_nil (ss : List Session) (d : Nat)
    (h : hasCompletedOn ss d = true) : sessionsOnDate ss d ≠ [] := by
  obtain ⟨s, hs, hp⟩ := List.any_eq_true.mp h
  intro hnil
  have : s ∈ sessionsOnDate ss d := List.mem_filter.mpr ⟨hs, hp⟩
  rw [hnil] at this
  exact absurd this (List.not_mem_nil s)

lemma bestHour_isSome (ss : List Session) (d : Nat)
    (h : hasCompletedOn ss d = true) : (bestHour ss d).isSome = true := by
  have hne : dayHours ss d ≠ [] := by
    unfold dayHours
    intro hnil
    rw [List.dedup_eq_nil, List.map_eq_nil_iff] at hnil
    exact sessionsOnDate_ne_nil ss d h hnil
  obtain ⟨x, t, hxt⟩ := List.exists_cons_of_ne_nil hne
  unfold bestHour
  rw [hxt, List.foldl_cons]
  exact bestHour_foldl_isSome ss d t (some x) rfl

lemma updateDailyStats_fields (ss : List Session) (d : Nat) :
    ∀ row, updateDailyStats ss d = some row →
      row.streak_days = calculateStreak ss d ∧ row.date = d := by
  intro row hrow
  unfold updateDailyStats at hrow
  cases hb : bestHour ss d with
  | none => rw [hb] at hrow; exact absurd hrow (by simp)
  | some b =>
    rw [hb] at hrow
    simp only [Option.some.injEq] at hrow
    rw [← hrow]
    exact ⟨rfl, rfl⟩

lemma updateDailyStats_of_hasCompleted (ss : List Session) (d : Nat)
    (h : hasCompletedOn ss d = true) :
    ∃ row, updateDailyStats ss d = some row ∧
      row.streak_days = calculateStreak ss d := by
  obtain ⟨b, hb⟩ := Option.isSome_iff_exists.mp (bestHour_isSome ss d h)
  have h1 : (updateDailyStats ss d).isSome = true := by
    unfold updateDailyStats
    rw [hb]
    rfl
  obtain ⟨row, hrow⟩ := Option.isSome_iff_exists.mp h1
  exact ⟨row, hrow, (updateDailyStats_fields ss d row hrow).1⟩

lemma calculateStreak_of_empty_day (ss : List Session) (d : Nat)
    (h : hasCompletedOn ss d = false) : calculateStreak ss d = 0 := by
  cases d <;> simp [calculateStreak, h]

end StreakLemmas

/-- C3: the streak value `_update_daily_stats` writes for a day with at
least one completed session obeys the spec's recurrence: it is `1` on the
epoch day, and for any later day it is `1 +` the streak of the immediately
preceding day when that day has a completed session, else `1`; moreover the
preceding day's own written row (when it exists) carries exactly that
preceding streak, `_calculate_streak`'s backward count. -/
theorem c3_streak_recurrence :
    (∀ ss : List Session, hasCompletedOn ss 0 = true →
      ∃ row, updateDailyStats ss 0 = some row ∧ row.streak_days = 1) ∧
    (∀ (ss : List Session) (d : Nat), hasCompletedOn ss (d + 1) = true →
      ∃ row, updateDailyStats ss (d + 1) = some row ∧
        row.streak_days =
          (if hasCompletedOn ss d = true then 1 + calculateStreak ss d else 1) ∧
        ∀ prev, updateDailyStats ss d = some prev →
          prev.streak_days = calculateStreak ss d) := by
  constructor
  · intro ss h
    obtain ⟨row, hrow, hs⟩ := updateDailyStats_of_hasCompleted ss 0 h
    refine ⟨row, hrow, ?_⟩
    rw [hs]
    simp [calculateStreak, h]
  · intro ss d h
    obtain ⟨row, hrow, hs⟩ := updateDailyStats_of_hasCompleted ss (d + 1) h
    refine ⟨row, hrow, ?_, fun prev hprev => (updateDailyStats_fields ss d prev hprev).1⟩
    rw [hs]
    rw [show calculateStreak ss (d + 1) =
        (if hasCompletedOn ss (d + 1) = true then 1 + calculateStreak ss d else 0) from rfl,
      if_pos h]
    by_cases hd : hasCompletedOn ss d = true
    · rw [if_pos hd]
    · rw [if_neg hd, calculateStreak_of_empty_day ss d
        (by revert hd; cases hasCompletedOn ss d <;> simp)]

section LevelLemmas

lemma threshold_mono : Monotone threshold :=
  monotone_nat_of_le_succ fun n => Nat.le_add_right (threshold n) (requiredFor n)

/-- Invariant of the `get_level` scan: arriving at index `i` with the
remaining thresholds `i, i+1, …, 100` means every earlier index was within
reach and `level` holds the last such index (`0` at the start).  The loop
then returns the largest index at most `100` whose threshold is at most
`total`. -/
lemma getLevelLoop_spec (total : Nat) :
    ∀ (k i lev : Nat), i + k = 101 →
      (∀ j, j < i → threshold j ≤ total) →
      ((i = 0 ∧ lev = 0) ∨ i = lev + 1) →
      threshold (getLevelLoop total i ((List.range' i k).map threshold) lev) ≤ total ∧
      getLevelLoop total i ((List.range' i k).map threshold) lev ≤ 100 ∧
      ∀ j, j ≤ 100 → threshold j ≤ total →
        j ≤ getLevelLoop total i ((List.range' i k).map threshold) lev := by
  intro k
  induction k with
  | zero =>
    intro i lev hik h0 hinv
    simp only [List.range', List.map_nil, getLevelLoop]
    rcases hinv with ⟨hi, _⟩ | hi
    · exfalso
      omega
    · refine ⟨h0 lev (by omega), by omega, fun j hj _ => by omega⟩
  | succ k ih =>
    intro i lev hik h0 hinv
    rw [List.range'_succ, List.map_cons]
    simp only [getLevelLoop]
    by_cases hc : total ≥ threshold i
    · rw [if_pos hc]
      refine ih (i + 1) i (by omega) ?_ (Or.inr rfl)
      intro j hj
      rcases Nat.lt_succ_iff_lt_or_eq.mp hj with h | h
      · exact h0 j h
      · rw [h]
        exact hc
    · rw [if_neg hc]
      push_neg at hc
      rcases hinv with ⟨hi, hlev⟩ | hi
      · exfalso
        rw [hi] at hc
        simp only [threshold] at hc
        omega
      · refine ⟨h0 lev (by omega), by omega, ?_⟩
        intro j hj hjt
        by_contra hgt
        push_neg at hgt
        have hmono := threshold_mono (show i ≤ j by omega)
        omega

end LevelLemmas

/-- C6: the threshold table has exactly 101 entries, entry `n` is
`threshold n` with `threshold 0 = 0` and
`threshold (n+1) = threshold n + ⌊10 · 1.15^n⌋` (exact arithmetic; the
float power the code evaluates truncates to the same integer at every index
of the table), `get_level` returns the largest index whose threshold is
within the completed-session total, and a total of `0` gives level `0`. -/
theorem c6_level_curve :
    level_thresholds.length = 101 ∧
    (∀ n, n ≤ 100 → level_thresholds[n]? = some (threshold n)) ∧
    threshold 0 = 0 ∧
    (∀ n, threshold (n + 1) = threshold n + requiredFor n) ∧
    (∀ n, requiredFor n = Nat.floor ((10 : ℚ) * (23 / 20) ^ n)) ∧
    (∀ total, threshold (get_level total) ≤ total ∧ get_level total ≤ 100 ∧
      ∀ j, j ≤ 100 → threshold j ≤ total → j ≤ get_level total) ∧
    get_level 0 = 0 := by
  have hrw : ∀ total, get_level total =
      getLevelLoop total 0 ((List.range' 0 101).map threshold) 0 := by
    intro total
    unfold get_level level_thresholds
    rw [List.range_eq_range']
  have hspec : ∀ total, threshold (get_level total) ≤ total ∧ get_level total ≤ 100 ∧
      ∀ j, j ≤ 100 → threshold j ≤ total → j ≤ get_level total := by
    intro total
    rw [hrw total]
    exact getLevelLoop_spec total 101 0 0 rfl (fun j hj => by omega) (Or.inl ⟨rfl, rfl⟩)
  refine ⟨?_, ?_, rfl, fun n => rfl, ?_, hspec, ?_⟩
  · unfold level_thresholds
    rw [List.length_map, List.length_range]
  · intro n hn
    unfold level_thresholds
    rw [List.getElem?_map, List.getElem?_range (by omega)]
    rfl
  · intro n
    unfold requiredFor
    rw [show (10 : ℚ) * (23 / 20) ^ n = ((10 * 23 ^ n : ℕ) : ℚ) / ((20 ^ n : ℕ) : ℚ) from by
      rw [div_pow]
      push_cast
      ring]
    exact (Nat.floor_div_eq_div (10 * 23 ^ n) (20 ^ n)).symm
  · obtain ⟨h1, _, _⟩ := hspec 0
    by_contra hne
    have hpos : 1 ≤ get_level 0 := Nat.pos_of_ne_zero hne
    have hmono := threshold_mono hpos
    have ht1 : threshold 1 = 10 := by decide
    omega

/-- Witness for C6: with 25 completed sessions the level is sandwiched by
its threshold, and level 2 (threshold 21) is within reach. -/
theorem c6_level_curve_witness :
    threshold (get_level 25) ≤ 25 ∧ 2 ≤ get_level 25 :=
  ⟨(c6_level_curve.2.2.2.2.2.1 25).1,
   (c6_level_curve.2.2.2.2.2.1 25).2.2 2 (by decide) (by decide)⟩

/-- Two consecutive active days ending at day 2. -/
def c3sessions : List Session := [mkCompleted 1 9 1500 "a", mkCompleted 2 9 1500 "a"]

/-- Witness for C3: day 2 of `c3sessions` gets streak `1 + streak(day 1) = 2`. -/
theorem c3_streak_recurrence_witness :
    ∃ row, updateDailyStats c3sessions 2 = some row ∧
      row.streak_days =
        (if hasCompletedOn c3sessions 1 = true then 1 + calculateStreak c3sessions 1 else 1) := by
  obtain ⟨row, h1, h2, _⟩ := c3_streak_recurrence.2 c3sessions 1 (by decide)
  exact ⟨row, h1, h2⟩

section AchievementLemmas

lemma checkRow_progress_eq (now : Nat) (env : Env) (a : Ach)
    (hl : a.unlocked = false) :
    (checkAchievementsRow now env a).progress =
      if (check_achievement a env).1 = true then a.progress
      else (check_achievement a env).2 := by
  unfold checkAchievementsRow
  rw [hl, if_neg (by simp : ¬(false = true))]
  rcases h : check_achievement a env with ⟨b, p⟩
  cases b
  · simp
  · simp

lemma checkRow_of_verdict_false (now : Nat) (env : Env) (a : Ach)
    (hl : a.unlocked = false) (hv : (check_achievement a env).1 = false) :
    checkAchievementsRow now env a = { a with progress := (check_achievement a env).2 } := by
  unfold checkAchievementsRow
  rw [hl, if_neg (by simp : ¬(false = true))]
  rcases h : check_achievement a env with ⟨b, p⟩
  rw [h] at hv
  simp only at hv
  cases b
  · rfl
  · exact absurd hv (by simp)

end AchievementLemmas

/-- The context the C2 counterexample runs in: 5 completed sessions overall,
nothing today. -/
def c2env : Env :=
  { total_pomodoros := 5, total_hours := 0, todayStat := none,
    todaySessions := [], allSessions := [] }

/-- The seeded `ten_pomodoros` row: locked, stored progress 0, target 10. -/
def c2ten : Ach := initAchievementRow "ten_pomodoros" 10

/-- C2 counterexample: with 5 total completed sessions, evaluating the locked
`ten_pomodoros` achievement leaves its stored progress at 0, although the
freshly computed cumulative-family value is `min(5, 10) = 5` — the dispatch
branch returns its verdict before the progress-update call is reached. -/
theorem c2_counterexample :
    c2ten.unlocked = false ∧
    (checkAchievementsRow 0 c2env c2ten).unlocked = false ∧
    (checkAchievementsRow 0 c2env c2ten).progress = 0 ∧
    update_achievement_progress c2ten c2env = 5 ∧
    (checkAchievementsRow 0 c2env c2ten).progress ≠
      update_achievement_progress c2ten c2env := by
  decide

/-- The identifiers with a branch in `_check_achievement`'s dispatch chain. -/
def dispatchIds : List String :=
  ["first_pomodoro", "ten_pomodoros", "hundred_pomodoros", "thousand_pomodoros",
   "three_day_streak", "week_streak", "month_streak", "year_streak",
   "daily_goal", "perfect_day", "early_bird", "night_owl", "perfect_focus",
   "marathon", "time_traveler"]

/-- C2 (amended): during `check_achievements` a locked achievement's stored
progress is refreshed only when its dispatch falls through without an early
`return`: streak- and single-day-family rules when today's `daily_stats`
row is missing, time-of-day and zero-interruption rules when no session
matches, and identifiers with no dispatch branch.  Branches that return a
verdict directly — the cumulative-count and cumulative-duration families,
and the streak/single-day families when today's row exists — leave the
stored progress exactly as it was. -/
theorem c2_progress_update_policy (now : Nat) (env : Env) (a : Ach)
    (hl : a.unlocked = false) :
    (a.id ∈ (["first_pomodoro", "ten_pomodoros", "hundred_pomodoros",
        "thousand_pomodoros", "marathon", "time_traveler"] : List String) →
      (checkAchievementsRow now env a).progress = a.progress) ∧
    (a.id ∈ (["three_day_streak", "week_streak", "month_streak", "year_streak",
        "daily_goal", "perfect_day"] : List String) →
      (env.todayStat.isSome = true →
        (checkAchievementsRow now env a).progress = a.progress) ∧
      (env.todayStat = none →
        (checkAchievementsRow now env a).progress = update_achievement_progress a env)) ∧
    (a.id = "early_bird" →
      env.todaySessions.any (fun s => s.completed && s.startHour < 6) = false →
      (checkAchievementsRow now env a).progress = update_achievement_progress a env) ∧
    (a.id = "night_owl" →
      env.todaySessions.any (fun s => s.completed && 22 ≤ s.startHour) = false →
      (checkAchievementsRow now env a).progress = update_achievement_progress a env) ∧
    (a.id = "perfect_focus" →
      env.allSessions.any (fun s => s.completed && s.interruptions == 0) = false →
      (checkAchievementsRow now env a).progress = update_achievement_progress a env) ∧
    (a.id ∉ dispatchIds →
      (checkAchievementsRow now env a).progress = update_achievement_progress a env) := by
  refine ⟨?_, ?_, ?_, ?_, ?_, ?_⟩
  · intro hmem
    rw [checkRow_progress_eq now env a hl]
    simp only [List.mem_cons, List.not_mem_nil, or_false] at hmem
    have h2 : (check_achievement a env).2 = a.progress := by
      rcases hmem with hid | hid | hid | hid | hid | hid <;> simp [check_achievement, hid]
    rw [h2, ite_self]
  · intro hmem
    simp only [List.mem_cons, List.not_mem_nil, or_false] at hmem
    constructor
    · intro hsome
      obtain ⟨ts, hts⟩ := Option.isSome_iff_exists.mp hsome
      rw [checkRow_progress_eq now env a hl]
      have h2 : (check_achievement a env).2 = a.progress := by
        rcases hmem with hid | hid | hid | hid | hid | hid <;>
          simp [check_achievement, hid, hts]
      rw [h2, ite_self]
    · intro hnone
      have hpair : check_achievement a env = (false, update_achievement_progress a env) := by
        rcases hmem with hid | hid | hid | hid | hid | hid <;>
          simp [check_achievement, hid, hnone]
      rw [checkRow_progress_eq now env a hl, hpair]
      simp
  · intro hid hany
    have hpair : check_achievement a env = (false, update_achievement_progress a env) := by
      simp [check_achievement, hid, hany]
    rw [checkRow_progress_eq now env a hl, hpair]
    simp
  · intro hid hany
    have hpair : check_achievement a env = (false, update_achievement_progress a env) := by
      simp [check_achievement, hid, hany]
    rw [checkRow_progress_eq now env a hl, hpair]
    simp
  · intro hid hany
    have hpair : check_achievement a env = (false, update_achievement_progress a env) := by
      simp [check_achievement, hid, hany]
    rw [checkRow_progress_eq now env a hl, hpair]
    simp
  · intro hnotin
    simp only [dispatchIds, List.mem_cons, List.not_mem_nil, or_false, not_or] at hnotin
    obtain ⟨n1, n2, n3, n4, n5, n6, n7, n8, n9, n10, n11, n12, n13, n14, n15⟩ := hnotin
    have hpair : check_achievement a env = (false, update_achievement_progress a env) := by
      simp [check_achievement, n1, n2, n3, n4, n5, n6, n7, n8, n9, n10, n11, n12, n13, n14, n15]
    rw [checkRow_progress_eq now env a hl, hpair]
    simp

/-- Witness for the amended C2: the locked `ten_pomodoros` row keeps its
stored progress, while a locked `week_streak` row with no daily row for
today receives the freshly computed value. -/
theorem c2_progress_update_policy_witness :
    (checkAchievementsRow 0 c2env c2ten).progress = c2ten.progress ∧
    (checkAchievementsRow 0 c2env (initAchievementRow "week_streak" 7)).progress =
      update_achievement_progress (initAchievementRow "week_streak" 7) c2env :=
  ⟨(c2_progress_update_policy 0 c2env c2ten rfl).1 (by decide),
   ((c2_progress_update_policy 0 c2env (initAchievementRow "week_streak" 7) rfl).2.1
      (by decide)).2 rfl⟩

/-- The catalog identifiers with no branch in either `_check_achievement`'s
dispatch or `_update_achievement_progress`. -/
def permanentlyLockedIds : List String :=
  ["focus_master", "deep_work", "weekend_warrior", "task_crusher", "task_master"]

/-- C10: the five catalog achievements without a dispatch branch are seeded
locked at progress 0, and no `check_achievements` call over any statistics
context ever unlocks one of them or leaves its stored progress above 0 —
the fall-through path computes family progress 0 for them. -/
theorem c10_unreachable_achievements :
    (∀ id ∈ permanentlyLockedIds, ∃ a ∈ initAchievements,
      a.id = id ∧ a.unlocked = false ∧ a.progress = 0) ∧
    (∀ (now : Nat) (env : Env) (a : Ach), a.id ∈ permanentlyLockedIds →
      a.unlocked = false →
      (check_achievement a env).1 = false ∧
      (checkAchievementsRow now env a).unlocked = false ∧
      (checkAchievementsRow now env a).progress = 0) := by
  constructor
  · decide
  · intro now env a hmem hl
    simp only [permanentlyLockedIds, List.mem_cons, List.not_mem_nil, or_false] at hmem
    have hpair : check_achievement a env = (false, update_achievement_progress a env) := by
      rcases hmem with hid | hid | hid | hid | hid <;> simp [check_achievement, hid]
    have hupd : update_achievement_progress a env = 0 := by
      rcases hmem with hid | hid | hid | hid | hid <;>
        simp [update_achievement_progress, hid]
    have hrow := checkRow_of_verdict_false now env a hl (by rw [hpair])
    refine ⟨by rw [hpair], ?_, ?_⟩
    · rw [hrow]
      exact hl
    · rw [hrow]
      show (check_achievement a env).2 = 0
      rw [hpair]
      exact hupd

/-- A locked `focus_master` row that somehow carries progress 3. -/
def c10ach : Ach :=
  { id := "focus_master", unlocked := false, unlockedDate := none,
    progress := 3, max_progress := 5 }

/-- Witness for C10 at `focus_master` against the empty statistics context. -/
theorem c10_unreachable_achievements_witness :
    (∃ a ∈ initAchievements, a.id = "focus_master" ∧ a.unlocked = false ∧ a.progress = 0) ∧
    (check_achievement c10ach emptyEnv).1 = false ∧
    (checkAchievementsRow 3 emptyEnv c10ach).unlocked = false ∧
    (checkAchievementsRow 3 emptyEnv c10ach).progress = 0 :=
  ⟨c10_unreachable_achievements.1 "focus_master" (by decide),
   c10_unreachable_achievements.2 3 emptyEnv c10ach (by decide) rfl⟩
